import Mathlib

/-!
Shallow embedding of `core/classify/llama.py` (`LLAMAClassify`), the
classification fine-tuning / inference shim of the SuperAdapters repository.

External collaborators (the HuggingFace tokenizer, `os.path.exists`, the
collaborator hooks of the base `LLM` class, the unseeded `Dataset.shuffle`
randomness and the seeded permutation that `train_test_split` derives from
its seed) are modelled as explicit function parameters; everything this
module itself computes (label lookup, dataset splitting, checkpoint
resolution, step-schedule arithmetic, control flow of `finetune`, the
adapter-loading condition of `generate`) is translated directly from the
Python source.

HuggingFace `Dataset.map` is eager and raises on the first element whose
tokenization fails, so the mapping step is modelled as an `Option`-valued
fold (`mapOrFail`): `none` models the raised exception.  `remove_columns`
on the textual columns is captured by the result type `TokenizedRecord`,
which holds exactly the token ids and the label index and none of the
textual fields.
-/

/-- One training example, as stored by the collaborator data source: the
free-text `input` and `instruction` fields and the categorical `output`. -/
structure Example where
  input : String
  instruction : String
  output : String
deriving DecidableEq, Repr

/-- The record produced for one example by `tokenize_prompt` followed by
`remove_columns(["input", "instruction", "output"])`: only the token-id
sequence and the integer label index remain. -/
structure TokenizedRecord where
  input_ids : List Nat
  labels : Nat
deriving DecidableEq, Repr

/-- Python `list.index(x)`: index of the first occurrence of `x`, or a
raised `ValueError` (modelled as `none`) when `x` is absent. -/
def pyListIndex (x : String) : List String → Option Nat
  | [] => none
  | y :: ys => if y = x then some 0 else (pyListIndex x ys).map (· + 1)

/-- `LLAMAClassify.tokenize_prompt` (llama.py lines 42-46): tokenizes only
`data_point["input"]` (truncation/padding behaviour lives inside the
external tokenizer `tok`) and sets the label to
`self.labels.index(data_point["output"])`.  A label absent from the
vocabulary makes `list.index` raise, modelled as `none`. -/
def tokenize_prompt (tok : String → List Nat) (labels : List String)
    (data_point : Example) : Option TokenizedRecord :=
  match pyListIndex data_point.output labels with
  | some i => some ⟨tok data_point.input, i⟩
  | none => none

/-- `LLAMAClassify.generate` (llama.py line 177): the trained adapter is
layered onto the base model exactly when `self.adapter_weights != "None"`. -/
def loads_adapter (adapter_weights : String) : Bool :=
  adapter_weights != "None"

/- ### Basic facts about `pyListIndex` -/

theorem pyListIndex_isSome_of_mem {x : String} {l : List String}
    (h : x ∈ l) : (pyListIndex x l).isSome := by
  induction l with
  | nil => cases h
  | cons y ys ih =>
    by_cases hy : y = x
    · simp [pyListIndex, hy]
    · cases h with
      | head => exact absurd rfl hy
      | tail _ h => simpa [pyListIndex, hy] using ih h

theorem pyListIndex_eq_none_of_not_mem {x : String} {l : List String}
    (h : x ∉ l) : pyListIndex x l = none := by
  induction l with
  | nil => rfl
  | cons y ys ih =>
    have hy : y ≠ x := fun e => h (e ▸ List.mem_cons_self y ys)
    have hx : x ∉ ys := fun hm => h (List.mem_cons_of_mem y hm)
    simp [pyListIndex, hy, ih hx]

theorem pyListIndex_spec {x : String} {l : List String} {i : Nat}
    (h : pyListIndex x l = some i) :
    l[i]? = some x ∧ ∀ j, j < i → l[j]? ≠ some x := by
  induction l generalizing i with
  | nil => cases h
  | cons y ys ih =>
    by_cases hy : y = x
    · simp [pyListIndex, hy] at h
      subst h
      subst hy
      exact ⟨by simp, fun j hj => absurd hj (Nat.not_lt_zero j)⟩
    · simp [pyListIndex, hy] at h
      obtain ⟨i', hi', rfl⟩ := h
      obtain ⟨h1, h2⟩ := ih hi'
      refine ⟨by simpa using h1, ?_⟩
      intro j hj
      cases j with
      | zero => simpa using hy
      | succ j' =>
        have : j' < i' := Nat.lt_of_succ_lt_succ hj
        simpa using h2 j' this

/-- Claim C1: for every `Example` whose `output` occurs in the configured
label vocabulary, `tokenize_prompt` succeeds and yields a record whose
`labels` field is exactly the position of that `output` in the vocabulary
(the first index holding it), and whose token ids are the tokenization of
the `input` field. -/
theorem tokenize_prompt_label_index (tok : String → List Nat)
    (labels : List String) (dp : Example) (h : dp.output ∈ labels) :
    ∃ r : TokenizedRecord,
      tokenize_prompt tok labels dp = some r ∧
      r.input_ids = tok dp.input ∧
      labels[r.labels]? = some dp.output ∧
      ∀ j, j < r.labels → labels[j]? ≠ some dp.output := by
  have hs := pyListIndex_isSome_of_mem h
  obtain ⟨i, hi⟩ := Option.isSome_iff_exists.mp hs
  obtain ⟨h1, h2⟩ := pyListIndex_spec hi
  exact ⟨⟨tok dp.input, i⟩, by simp [tokenize_prompt, hi], rfl, h1, h2⟩

/-- Witness for C1, the spec's scenario: vocabulary
`["positive", "negative"]`, an example with output `"negative"` gets
label index 1 (here checked via the position characterization). -/
theorem tokenize_prompt_label_index_witness :
    (("negative" : String) ∈ ["positive", "negative"]) ∧
    ∃ r : TokenizedRecord,
      tokenize_prompt (fun s => [s.length]) ["positive", "negative"]
        ⟨"some text", "an instruction", "negative"⟩ = some r ∧
      r.input_ids = (fun s : String => [s.length]) "some text" ∧
      ["positive", "negative"][r.labels]? = some "negative" ∧
      ∀ j, j < r.labels → ["positive", "negative"][j]? ≠ some "negative" :=
  ⟨by decide,
   tokenize_prompt_label_index (fun s => [s.length]) ["positive", "negative"]
     ⟨"some text", "an instruction", "negative"⟩ (by decide)⟩

/-- Claim C2: for every `Example` whose `output` is absent from the label
vocabulary, `tokenize_prompt` fails (Python `list.index` raises
`ValueError`; nothing in the module catches it), modelled as `none`. -/
theorem tokenize_prompt_fails_of_not_mem (tok : String → List Nat)
    (labels : List String) (dp : Example) (h : dp.output ∉ labels) :
    tokenize_prompt tok labels dp = none := by
  simp [tokenize_prompt, pyListIndex_eq_none_of_not_mem h]

/-- Witness for C2: output `"neutral"` is not in
`["positive", "negative"]`, and tokenization of such an example fails. -/
theorem tokenize_prompt_fails_of_not_mem_witness :
    (("neutral" : String) ∉ ["positive", "negative"]) ∧
    tokenize_prompt (fun s => [s.length]) ["positive", "negative"]
      ⟨"some text", "an instruction", "neutral"⟩ = none :=
  ⟨by decide,
   tokenize_prompt_fails_of_not_mem (fun s => [s.length])
     ["positive", "negative"] ⟨"some text", "an instruction", "neutral"⟩
     (by decide)⟩

/-- Claim C9: the record produced by `tokenize_prompt` depends only on the
`input` and `output` fields of the example: two examples agreeing on
`input` and `output` but differing arbitrarily in `instruction` tokenize
identically, and the token ids of a successful tokenization are exactly
the tokenizer applied to `input` (so `instruction` contributes neither to
the token ids nor to the label index). -/
theorem tokenize_prompt_ignores_instruction (tok : String → List Nat)
    (labels : List String) (dp₁ dp₂ : Example)
    (hi : dp₁.input = dp₂.input) (ho : dp₁.output = dp₂.output) :
    tokenize_prompt tok labels dp₁ = tokenize_prompt tok labels dp₂ ∧
    ∀ r : TokenizedRecord, tokenize_prompt tok labels dp₁ = some r →
      r.input_ids = tok dp₁.input := by
  constructor
  · simp [tokenize_prompt, hi, ho]
  · intro r hr
    unfold tokenize_prompt at hr
    cases hpy : pyListIndex dp₁.output labels with
    | none => rw [hpy] at hr; cases hr
    | some i => rw [hpy] at hr; cases hr; rfl

/-- Witness for C9: two concrete examples that differ only in their
`instruction` field produce the same tokenized record. -/
theorem tokenize_prompt_ignores_instruction_witness :
    ((⟨"abc", "first instruction", "positive"⟩ : Example).input =
      (⟨"abc", "second instruction", "positive"⟩ : Example).input) ∧
    tokenize_prompt (fun s => [s.length]) ["positive", "negative"]
        ⟨"abc", "first instruction", "positive"⟩ =
      tokenize_prompt (fun s => [s.length]) ["positive", "negative"]
        ⟨"abc", "second instruction", "positive"⟩ :=
  ⟨rfl,
   (tokenize_prompt_ignores_instruction (fun s => [s.length])
     ["positive", "negative"] ⟨"abc", "first instruction", "positive"⟩
     ⟨"abc", "second instruction", "positive"⟩ rfl rfl).1⟩

/-- Counterexample for C6: the claim says adapter loading is skipped if
and only if `adapter_weights` equals the sentinel string `"none"`.  The
code compares against `"None"` (capital N, llama.py line 177), so for the
concrete value `"none"` the adapter IS loaded, refuting the claimed
equivalence. -/
theorem loads_adapter_counterexample :
    ¬ (∀ w : String, loads_adapter w = false ↔ w = "none") := by
  intro h
  have := (h "none").mpr rfl
  simp [loads_adapter] at this

/-- Claim C6 (amended): loading the trained adapter onto the base model in
`generate` is skipped if and only if `adapter_weights` equals the sentinel
string `"None"`; for every other value the adapter is layered on top. -/
theorem loads_adapter_iff (w : String) :
    loads_adapter w = false ↔ w = "None" := by
  simp [loads_adapter]

/- ### Dataset shuffling and splitting (`split_train_data`, llama.py 48-63) -/

/-- A dataset shuffle, modelled as selecting positions of the underlying
list in the order given by an index list `σ` (out-of-range indices select
nothing; a genuine shuffle is a `σ` that is a permutation of
`List.range xs.length`). -/
def applyPerm {α : Type} (σ : List Nat) (xs : List α) : List α :=
  σ.filterMap (fun i => xs[i]?)

/-- HuggingFace `Dataset.map` with a fallible per-row function: eager, and
the first raised exception aborts the whole mapping (modelled as `none`). -/
def mapOrFail {α β : Type} (f : α → Option β) : List α → Option (List β)
  | [] => some []
  | x :: xs =>
    match f x, mapOrFail f xs with
    | some y, some ys => some (y :: ys)
    | _, _ => none

/-- `LLAMAClassify.split_train_data` (llama.py lines 48-63).
`permGen seed n` models the seeded permutation that `train_test_split`
(with `shuffle=True, seed=42`) derives from its seed — the library
guarantees it depends only on the seed and the row count.  `shuffleTrain`
and `shuffleVal` model the two UNSEEDED `.shuffle()` calls, whose
permutations are fresh randomness on every run.  With
`val_set_size > 0` the shuffled data is split into a test block of
`val_set_size` rows and a train block of the remaining rows; each block is
independently shuffled, tokenized and stripped to `TokenizedRecord`s.
Otherwise the whole set is shuffled and tokenized as train data and the
validation dataset is `None`. -/
def split_train_data (tok : String → List Nat) (labels : List String)
    (permGen : Nat → Nat → List Nat) (shuffleTrain shuffleVal : List Nat)
    (val_set_size : Nat) (data : List Example) :
    Option (List TokenizedRecord × Option (List TokenizedRecord)) :=
  if 0 < val_set_size then
    let shuffled := applyPerm (permGen 42 data.length) data
    let testPart := shuffled.take val_set_size
    let trainPart := shuffled.drop val_set_size
    match mapOrFail (tokenize_prompt tok labels) (applyPerm shuffleTrain trainPart),
          mapOrFail (tokenize_prompt tok labels) (applyPerm shuffleVal testPart) with
    | some t, some v => some (t, some v)
    | _, _ => none
  else
    match mapOrFail (tokenize_prompt tok labels) (applyPerm shuffleTrain data) with
    | some t => some (t, none)
    | none => none

/- ### Helper lemmas about `applyPerm` and `mapOrFail` -/

theorem range_filterMap_getElem {α : Type} (xs : List α) :
    (List.range xs.length).filterMap (fun i => xs[i]?) = xs := by
  induction xs with
  | nil => rfl
  | cons a t ih =>
    have hc : (fun i => (a :: t)[i]?) ∘ Nat.succ = fun i : Nat => t[i]? := by
      funext i; simp
    simp [List.range_succ_eq_map, List.filterMap_map, hc, ih]

theorem applyPerm_perm {α : Type} {σ : List Nat} (xs : List α)
    (h : σ.Perm (List.range xs.length)) : (applyPerm σ xs).Perm xs := by
  have hp := h.filterMap (fun i => xs[i]?)
  rwa [range_filterMap_getElem xs] at hp

theorem mem_of_mem_applyPerm {α : Type} {σ : List Nat} {xs : List α} {x : α}
    (h : x ∈ applyPerm σ xs) : x ∈ xs := by
  obtain ⟨i, _, hi⟩ := List.mem_filterMap.mp h
  rw [List.getElem?_eq_some] at hi
  obtain ⟨hlt, rfl⟩ := hi
  exact List.getElem_mem hlt

theorem mapOrFail_eq_some {α β : Type} {f : α → Option β} {xs : List α}
    (h : ∀ x ∈ xs, (f x).isSome) :
    mapOrFail f xs = some (xs.filterMap f) := by
  induction xs with
  | nil => rfl
  | cons a t ih =>
    obtain ⟨b, hb⟩ := Option.isSome_iff_exists.mp (h a (List.mem_cons_self a t))
    have ht := ih (fun x hx => h x (List.mem_cons_of_mem a hx))
    simp [mapOrFail, hb, ht, List.filterMap_cons]

theorem length_filterMap_of_isSome {α β : Type} {f : α → Option β}
    {xs : List α} (h : ∀ x ∈ xs, (f x).isSome) :
    (xs.filterMap f).length = xs.length := by
  induction xs with
  | nil => rfl
  | cons a t ih =>
    obtain ⟨b, hb⟩ := Option.isSome_iff_exists.mp (h a (List.mem_cons_self a t))
    have ht := ih (fun x hx => h x (List.mem_cons_of_mem a hx))
    simp [List.filterMap_cons, hb, ht]

theorem tokenize_prompt_isSome {tok : String → List Nat}
    {labels : List String} {dp : Example} (h : dp.output ∈ labels) :
    (tokenize_prompt tok labels dp).isSome := by
  obtain ⟨i, hi⟩ := Option.isSome_iff_exists.mp (pyListIndex_isSome_of_mem h)
  simp [tokenize_prompt, hi]

/-- Claim C7: with `val_set_size = 0`, `split_train_data` returns the
whole dataset — shuffled, tokenized and stripped to `TokenizedRecord`s
(i.e. a permutation of the tokenization of the input data, the textual
columns being gone by the result type) — as train data, and no validation
dataset, for any genuine shuffle permutation. -/
theorem split_train_data_no_val (tok : String → List Nat)
    (labels : List String) (permGen : Nat → Nat → List Nat)
    (shuffleTrain shuffleVal : List Nat) (data : List Example)
    (hσ : shuffleTrain.Perm (List.range data.length))
    (hall : ∀ x ∈ data, x.output ∈ labels) :
    ∃ t : List TokenizedRecord,
      split_train_data tok labels permGen shuffleTrain shuffleVal 0 data =
        some (t, none) ∧
      t.Perm (data.filterMap (tokenize_prompt tok labels)) := by
  have hsome : ∀ x ∈ applyPerm shuffleTrain data,
      (tokenize_prompt tok labels x).isSome :=
    fun x hx => tokenize_prompt_isSome (hall x (mem_of_mem_applyPerm hx))
  refine ⟨(applyPerm shuffleTrain data).filterMap (tokenize_prompt tok labels),
    ?_, ?_⟩
  · simp [split_train_data, mapOrFail_eq_some hsome]
  · exact (applyPerm_perm data hσ).filterMap _

/-- Witness for C7: a concrete two-row dataset with `val_set_size = 0`:
all rows come back as train data (as a permutation of their
tokenizations) and the validation dataset is `None`. -/
theorem split_train_data_no_val_witness :
    (([1, 0] : List Nat).Perm (List.range
      ([⟨"a", "i1", "positive"⟩, ⟨"bb", "i2", "negative"⟩] : List Example).length)) ∧
    ∃ t : List TokenizedRecord,
      split_train_data (fun s => [s.length]) ["positive", "negative"]
          (fun _ n => List.range n) [1, 0] [] 0
          [⟨"a", "i1", "positive"⟩, ⟨"bb", "i2", "negative"⟩] =
        some (t, none) ∧
      t.Perm (([⟨"a", "i1", "positive"⟩, ⟨"bb", "i2", "negative"⟩] : List Example).filterMap
        (tokenize_prompt (fun s => [s.length]) ["positive", "negative"])) :=
  ⟨by decide,
   split_train_data_no_val (fun s => [s.length]) ["positive", "negative"]
     (fun _ n => List.range n) [1, 0] []
     [⟨"a", "i1", "positive"⟩, ⟨"bb", "i2", "negative"⟩]
     (by decide) (by decide)⟩

/-- One run of `split_train_data` with `val_set_size > 0`: the call
succeeds, the train part has `data.length - v` rows and the validation
part `v` rows, together they are a permutation of the tokenized dataset,
and each part is a permutation of the tokenization of the corresponding
block of the seed-42-shuffled data (which depends only on `permGen`, the
seed and the input — not on the unseeded shuffles). -/
theorem split_train_data_val_run (tok : String → List Nat)
    (labels : List String) (permGen : Nat → Nat → List Nat)
    (st sv : List Nat) (v : Nat) (data : List Example)
    (hv : 0 < v) (hvle : v ≤ data.length)
    (hgen : (permGen 42 data.length).Perm (List.range data.length))
    (hst : st.Perm (List.range (data.length - v)))
    (hsv : sv.Perm (List.range v))
    (hall : ∀ x ∈ data, x.output ∈ labels) :
    ∃ t vd : List TokenizedRecord,
      split_train_data tok labels permGen st sv v data = some (t, some vd) ∧
      t.length = data.length - v ∧ vd.length = v ∧
      (t ++ vd).Perm (data.filterMap (tokenize_prompt tok labels)) ∧
      t.Perm (((applyPerm (permGen 42 data.length) data).drop v).filterMap
        (tokenize_prompt tok labels)) ∧
      vd.Perm (((applyPerm (permGen 42 data.length) data).take v).filterMap
        (tokenize_prompt tok labels)) := by
  have hs : (applyPerm (permGen 42 data.length) data).Perm data :=
    applyPerm_perm data hgen
  set s := applyPerm (permGen 42 data.length) data with hs_def
  have hslen : s.length = data.length := hs.length_eq
  have hsome_t : ∀ x ∈ applyPerm st (s.drop v),
      (tokenize_prompt tok labels x).isSome := fun x hx =>
    tokenize_prompt_isSome (hall x
      (hs.mem_iff.mp (List.mem_of_mem_drop (mem_of_mem_applyPerm hx))))
  have hsome_v : ∀ x ∈ applyPerm sv (s.take v),
      (tokenize_prompt tok labels x).isSome := fun x hx =>
    tokenize_prompt_isSome (hall x
      (hs.mem_iff.mp (List.mem_of_mem_take (mem_of_mem_applyPerm hx))))
  have hdrop_len : (s.drop v).length = data.length - v := by
    rw [List.length_drop, hslen]
  have htake_len : (s.take v).length = v := by
    rw [List.length_take, hslen]
    exact Nat.min_eq_left hvle
  have hpt : (applyPerm st (s.drop v)).Perm (s.drop v) :=
    applyPerm_perm _ (by rw [hdrop_len]; exact hst)
  have hpv : (applyPerm sv (s.take v)).Perm (s.take v) :=
    applyPerm_perm _ (by rw [htake_len]; exact hsv)
  refine ⟨(applyPerm st (s.drop v)).filterMap (tokenize_prompt tok labels),
    (applyPerm sv (s.take v)).filterMap (tokenize_prompt tok labels),
    ?_, ?_, ?_, ?_, hpt.filterMap _, hpv.filterMap _⟩
  · simp only [split_train_data, if_pos hv, ← hs_def,
      mapOrFail_eq_some hsome_t, mapOrFail_eq_some hsome_v]
  · rw [length_filterMap_of_isSome hsome_t, hpt.length_eq, hdrop_len]
  · rw [length_filterMap_of_isSome hsome_v, hpv.length_eq, htake_len]
  · have happ := (hpt.filterMap (tokenize_prompt tok labels)).append
      (hpv.filterMap (tokenize_prompt tok labels))
    have hrest : (s.drop v ++ s.take v).Perm data := by
      have h1 : (s.drop v ++ s.take v).Perm (s.take v ++ s.drop v) :=
        List.perm_append_comm
      rw [List.take_append_drop] at h1
      exact h1.trans hs
    have h2 : ((s.drop v).filterMap (tokenize_prompt tok labels) ++
        (s.take v).filterMap (tokenize_prompt tok labels)).Perm
          (data.filterMap (tokenize_prompt tok labels)) := by
      rw [← List.filterMap_append]
      exact hrest.filterMap _
    exact happ.trans h2

/-- Claim C8: with `val_set_size > 0`, `split_train_data` partitions the
input into train and validation subsets that are disjoint (together they
form exactly the tokenized input, each row used once) and whose sizes sum
to the original row count; and two runs on the same input ordering with
the same seed — even with different fresh randomness in the unseeded
per-partition shuffles — produce identical partitions (equal as
multisets). -/
theorem split_train_data_with_val (tok : String → List Nat)
    (labels : List String) (permGen : Nat → Nat → List Nat)
    (st sv st' sv' : List Nat) (v : Nat) (data : List Example)
    (hv : 0 < v) (hvle : v ≤ data.length)
    (hgen : (permGen 42 data.length).Perm (List.range data.length))
    (hst : st.Perm (List.range (data.length - v)))
    (hsv : sv.Perm (List.range v))
    (hst' : st'.Perm (List.range (data.length - v)))
    (hsv' : sv'.Perm (List.range v))
    (hall : ∀ x ∈ data, x.output ∈ labels) :
    ∃ t vd t' vd' : List TokenizedRecord,
      split_train_data tok labels permGen st sv v data = some (t, some vd) ∧
      split_train_data tok labels permGen st' sv' v data = some (t', some vd') ∧
      t.length + vd.length = data.length ∧
      (t ++ vd).Perm (data.filterMap (tokenize_prompt tok labels)) ∧
      t.Perm t' ∧ vd.Perm vd' := by
  obtain ⟨t, vd, he, hlt, hlv, hsum, hpt, hpv⟩ :=
    split_train_data_val_run tok labels permGen st sv v data
      hv hvle hgen hst hsv hall
  obtain ⟨t', vd', he', _, _, _, hpt', hpv'⟩ :=
    split_train_data_val_run tok labels permGen st' sv' v data
      hv hvle hgen hst' hsv' hall
  refine ⟨t, vd, t', vd', he, he', ?_, hsum, hpt.trans hpt'.symm,
    hpv.trans hpv'.symm⟩
  rw [hlt, hlv]
  exact Nat.sub_add_cancel hvle

/-- Witness for C8: a three-row dataset, `val_set_size = 1`, and two runs
whose unseeded shuffle permutations differ: both succeed, sizes sum to 3,
and the partitions coincide as multisets. -/
theorem split_train_data_with_val_witness :
    (0 < 1 ∧ 1 ≤ ([⟨"a", "i1", "positive"⟩, ⟨"bb", "i2", "negative"⟩,
      ⟨"ccc", "i3", "positive"⟩] : List Example).length) ∧
    ∃ t vd t' vd' : List TokenizedRecord,
      split_train_data (fun s => [s.length]) ["positive", "negative"]
          (fun _ n => List.range n) [0, 1] [0] 1
          [⟨"a", "i1", "positive"⟩, ⟨"bb", "i2", "negative"⟩,
            ⟨"ccc", "i3", "positive"⟩] = some (t, some vd) ∧
      split_train_data (fun s => [s.length]) ["positive", "negative"]
          (fun _ n => List.range n) [1, 0] [0] 1
          [⟨"a", "i1", "positive"⟩, ⟨"bb", "i2", "negative"⟩,
            ⟨"ccc", "i3", "positive"⟩] = some (t', some vd') ∧
      t.length + vd.length = 3 ∧
      (t ++ vd).Perm (([⟨"a", "i1", "positive"⟩, ⟨"bb", "i2", "negative"⟩,
        ⟨"ccc", "i3", "positive"⟩] : List Example).filterMap
          (tokenize_prompt (fun s => [s.length]) ["positive", "negative"])) ∧
      t.Perm t' ∧ vd.Perm vd' :=
  ⟨⟨Nat.zero_lt_one, by decide⟩,
   split_train_data_with_val (fun s => [s.length]) ["positive", "negative"]
     (fun _ n => List.range n) [0, 1] [0] [1, 0] [0] 1
     [⟨"a", "i1", "positive"⟩, ⟨"bb", "i2", "negative"⟩,
       ⟨"ccc", "i3", "positive"⟩]
     (by decide) (by decide) (by decide) (by decide) (by decide)
     (by decide) (by decide) (by decide)⟩

/- ### Checkpoint resolution and the `finetune` orchestrator (llama.py 65-162) -/

/-- Outcome of the checkpoint block of `finetune` (llama.py lines 98-116).
`resume_arg` is the value of `self.resume_from_checkpoint` after the
block — the very value later passed to
`trainer.train(resume_from_checkpoint=...)` (line 158); `none` models a
Python-falsy value (`False`, `None`, empty string).  `weights_loaded`
records whether `set_peft_model_state_dict` was called with weights from
the checkpoint directory. -/
structure CheckpointResolution where
  resume_arg : Option String
  weights_loaded : Bool
deriving DecidableEq, Repr

/-- The checkpoint block of `finetune`: with resumption configured, probe
`<dir>/pytorch_model.bin` first; if absent, fall back to
`<dir>/adapter_model.bin` and set `self.resume_from_checkpoint = False`
(so the trainer will not try to load its own state); load whichever file
was found, or print "Checkpoint ... not found" and continue.  `pathExists`
models `os.path.exists`. -/
def resolve_checkpoint (resume_from_checkpoint : Option String)
    (pathExists : String → Bool) : CheckpointResolution :=
  match resume_from_checkpoint with
  | none => ⟨none, false⟩
  | some dir =>
    if pathExists (dir ++ "/pytorch_model.bin") then
      ⟨some dir, true⟩
    else if pathExists (dir ++ "/adapter_model.bin") then
      ⟨none, true⟩
    else
      ⟨none, false⟩

/-- The configuration attributes of the task object that the `finetune`
control flow modelled here reads. -/
structure FinetuneConfig where
  resume_from_checkpoint : Option String
  per_gpu_train_batch_size : Nat
  gradient_accumulation_steps : Nat
  world_size : Nat
  ddp : Bool
  val_set_size : Nat

/-- Observable outcome of a `finetune` run: either the empty-data early
return (after printing "Warning! Empty Train Data!", before any trainer
is constructed), or a completed run recording the checkpoint resolution,
the step-schedule values handed to `TrainingArguments`, and the value
passed to `trainer.train(resume_from_checkpoint=...)`. -/
inductive FinetuneResult where
  | emptyData : FinetuneResult
  | ran (ckpt : CheckpointResolution)
      (total_batch_size total_optim_steps saving_step warmup_steps : Nat)
      (trainer_resume : Option String) : FinetuneResult
deriving DecidableEq, Repr

/-- `LLAMAClassify.finetune` (llama.py lines 65-162), with the external
collaborators as parameters.  `data` is the result of
`self.load_train_data(fromdb, iteration)`; `none` models a Python-falsy
result (the `if not data` guard).  A `none` overall result models an
exception raised while tokenizing (a label outside the vocabulary).
Python computes `total_optim_steps = train_data.num_rows // total_batch`
and `int(total_optim_steps / 10)`; both are nonnegative-integer floor
divisions, modelled with `Nat` division. -/
def finetune (cfg : FinetuneConfig) (tok : String → List Nat)
    (labels : List String) (permGen : Nat → Nat → List Nat)
    (shuffleTrain shuffleVal : List Nat) (pathExists : String → Bool)
    (data : Option (List Example)) : Option FinetuneResult :=
  match data with
  | none => some .emptyData
  | some d =>
    match split_train_data tok labels permGen shuffleTrain shuffleVal
        cfg.val_set_size d with
    | none => none
    | some (train_data, _val_data) =>
      let ckpt := resolve_checkpoint cfg.resume_from_checkpoint pathExists
      let total_batch_size := cfg.per_gpu_train_batch_size *
        cfg.gradient_accumulation_steps * (if cfg.ddp then cfg.world_size else 1)
      let total_optim_steps := train_data.length / total_batch_size
      some (.ran ckpt total_batch_size total_optim_steps
        (total_optim_steps / 10) (total_optim_steps / 10) ckpt.resume_arg)

/-- Claim C3: when `load_train_data` returns empty (falsy) training data,
`finetune` prints its warning and returns early — no exception, and no
trainer is ever constructed or invoked (the result is `emptyData`, never
`ran`). -/
theorem finetune_empty_data (cfg : FinetuneConfig) (tok : String → List Nat)
    (labels : List String) (permGen : Nat → Nat → List Nat)
    (shuffleTrain shuffleVal : List Nat) (pathExists : String → Bool) :
    finetune cfg tok labels permGen shuffleTrain shuffleVal pathExists none =
      some .emptyData :=
  rfl

/-- Claim C4: when resumption is configured and the checkpoint directory
holds only `adapter_model.bin` (no `pytorch_model.bin`), the
resume-trainer-state flag ends up false (`resume_arg = none`, so the
trainer is not asked to resume step/optimizer state) while the adapter
weights from that file are still loaded into the model. -/
theorem resolve_checkpoint_adapter_only (dir : String)
    (pathExists : String → Bool)
    (hfull : pathExists (dir ++ "/pytorch_model.bin") = false)
    (hadapter : pathExists (dir ++ "/adapter_model.bin") = true) :
    (resolve_checkpoint (some dir) pathExists).resume_arg = none ∧
    (resolve_checkpoint (some dir) pathExists).weights_loaded = true := by
  simp [resolve_checkpoint, hfull, hadapter]

/-- Witness for C4: a concrete directory whose only checkpoint file is
`ckpt/adapter_model.bin`. -/
theorem resolve_checkpoint_adapter_only_witness :
    ((fun s : String => s == "ckpt/adapter_model.bin")
        ("ckpt" ++ "/pytorch_model.bin") = false) ∧
    (resolve_checkpoint (some "ckpt")
        (fun s => s == "ckpt/adapter_model.bin")).resume_arg = none ∧
    (resolve_checkpoint (some "ckpt")
        (fun s => s == "ckpt/adapter_model.bin")).weights_loaded = true :=
  ⟨by decide,
   resolve_checkpoint_adapter_only "ckpt"
     (fun s => s == "ckpt/adapter_model.bin") (by decide) (by decide)⟩

/-- `split_train_data` succeeds whenever every example's `output` is in
the label vocabulary (no perm assumptions needed: tokenization cannot
fail). -/
theorem split_train_data_succeeds (tok : String → List Nat)
    (labels : List String) (permGen : Nat → Nat → List Nat)
    (st sv : List Nat) (v : Nat) (data : List Example)
    (hall : ∀ x ∈ data, x.output ∈ labels) :
    ∃ t vd, split_train_data tok labels permGen st sv v data =
      some (t, vd) := by
  by_cases hv : 0 < v
  · set s := applyPerm (permGen 42 data.length) data with hs_def
    have hsome_t : ∀ x ∈ applyPerm st (s.drop v),
        (tokenize_prompt tok labels x).isSome := fun x hx =>
      tokenize_prompt_isSome (hall x (mem_of_mem_applyPerm
        (List.mem_of_mem_drop (mem_of_mem_applyPerm hx))))
    have hsome_v : ∀ x ∈ applyPerm sv (s.take v),
        (tokenize_prompt tok labels x).isSome := fun x hx =>
      tokenize_prompt_isSome (hall x (mem_of_mem_applyPerm
        (List.mem_of_mem_take (mem_of_mem_applyPerm hx))))
    exact ⟨(applyPerm st (s.drop v)).filterMap (tokenize_prompt tok labels),
      some ((applyPerm sv (s.take v)).filterMap (tokenize_prompt tok labels)),
      by simp only [split_train_data, if_pos hv, ← hs_def,
        mapOrFail_eq_some hsome_t, mapOrFail_eq_some hsome_v]⟩
  · have hsome : ∀ x ∈ applyPerm st data,
        (tokenize_prompt tok labels x).isSome := fun x hx =>
      tokenize_prompt_isSome (hall x (mem_of_mem_applyPerm hx))
    exact ⟨(applyPerm st data).filterMap (tokenize_prompt tok labels), none,
      by simp only [split_train_data, if_neg hv, mapOrFail_eq_some hsome]⟩

/-- The train split produced by `split_train_data` has
`data.length - val_set_size` rows when `val_set_size > 0` and
`data.length` rows otherwise (given genuine shuffle permutations). -/
theorem split_train_data_train_rows (tok : String → List Nat)
    (labels : List String) (permGen : Nat → Nat → List Nat)
    (st sv : List Nat) (v : Nat) (data : List Example)
    (hall : ∀ x ∈ data, x.output ∈ labels)
    (hgen : (permGen 42 data.length).Perm (List.range data.length))
    (hst : st.Perm (List.range
      (if 0 < v then data.length - v else data.length))) :
    ∃ t vd, split_train_data tok labels permGen st sv v data =
      some (t, vd) ∧
      t.length = (if 0 < v then data.length - v else data.length) := by
  by_cases hv : 0 < v
  · rw [if_pos hv] at hst
    have hs : (applyPerm (permGen 42 data.length) data).Perm data :=
      applyPerm_perm data hgen
    set s := applyPerm (permGen 42 data.length) data with hs_def
    have hslen : s.length = data.length := hs.length_eq
    have hdrop_len : (s.drop v).length = data.length - v := by
      rw [List.length_drop, hslen]
    have hsome_t : ∀ x ∈ applyPerm st (s.drop v),
        (tokenize_prompt tok labels x).isSome := fun x hx =>
      tokenize_prompt_isSome (hall x (mem_of_mem_applyPerm
        (List.mem_of_mem_drop (mem_of_mem_applyPerm hx))))
    have hsome_v : ∀ x ∈ applyPerm sv (s.take v),
        (tokenize_prompt tok labels x).isSome := fun x hx =>
      tokenize_prompt_isSome (hall x (mem_of_mem_applyPerm
        (List.mem_of_mem_take (mem_of_mem_applyPerm hx))))
    have hpt : (applyPerm st (s.drop v)).Perm (s.drop v) :=
      applyPerm_perm _ (by rw [hdrop_len]; exact hst)
    refine ⟨(applyPerm st (s.drop v)).filterMap (tokenize_prompt tok labels),
      some ((applyPerm sv (s.take v)).filterMap (tokenize_prompt tok labels)),
      ?_, ?_⟩
    · simp only [split_train_data, if_pos hv, ← hs_def,
        mapOrFail_eq_some hsome_t, mapOrFail_eq_some hsome_v]
    · rw [if_pos hv, length_filterMap_of_isSome hsome_t, hpt.length_eq,
        hdrop_len]
  · rw [if_neg hv] at hst
    have hsome : ∀ x ∈ applyPerm st data,
        (tokenize_prompt tok labels x).isSome := fun x hx =>
      tokenize_prompt_isSome (hall x (mem_of_mem_applyPerm hx))
    have hpt : (applyPerm st data).Perm data := applyPerm_perm data hst
    refine ⟨(applyPerm st data).filterMap (tokenize_prompt tok labels),
      none, ?_, ?_⟩
    · simp only [split_train_data, if_neg hv, mapOrFail_eq_some hsome]
    · rw [if_neg hv, length_filterMap_of_isSome hsome, hpt.length_eq]

/-- Claim C5: `finetune` computes the effective batch size as
`per_gpu_train_batch_size * gradient_accumulation_steps`, multiplied by
`world_size` only when `ddp` (distributed training) is enabled; total
optimizer steps as the train-split row count integer-divided by the
effective batch size; and both warmup steps and the save/eval cadence as
the integer floor of one tenth of the total optimizer steps.  The Python
precondition that the effective batch size is nonzero (else `//` raises
`ZeroDivisionError`) is taken as a hypothesis. -/
theorem finetune_step_schedule (cfg : FinetuneConfig)
    (tok : String → List Nat) (labels : List String)
    (permGen : Nat → Nat → List Nat) (st sv : List Nat)
    (pathExists : String → Bool) (d : List Example)
    (hall : ∀ x ∈ d, x.output ∈ labels)
    (hgen : (permGen 42 d.length).Perm (List.range d.length))
    (hst : st.Perm (List.range
      (if 0 < cfg.val_set_size then d.length - cfg.val_set_size
       else d.length)))
    (hB : 0 < cfg.per_gpu_train_batch_size *
      cfg.gradient_accumulation_steps *
      (if cfg.ddp then cfg.world_size else 1)) :
    finetune cfg tok labels permGen st sv pathExists (some d) =
      some (.ran (resolve_checkpoint cfg.resume_from_checkpoint pathExists)
        (cfg.per_gpu_train_batch_size * cfg.gradient_accumulation_steps *
          (if cfg.ddp then cfg.world_size else 1))
        ((if 0 < cfg.val_set_size then d.length - cfg.val_set_size
          else d.length) /
         (cfg.per_gpu_train_batch_size * cfg.gradient_accumulation_steps *
          (if cfg.ddp then cfg.world_size else 1)))
        ((if 0 < cfg.val_set_size then d.length - cfg.val_set_size
          else d.length) /
         (cfg.per_gpu_train_batch_size * cfg.gradient_accumulation_steps *
          (if cfg.ddp then cfg.world_size else 1)) / 10)
        ((if 0 < cfg.val_set_size then d.length - cfg.val_set_size
          else d.length) /
         (cfg.per_gpu_train_batch_size * cfg.gradient_accumulation_steps *
          (if cfg.ddp then cfg.world_size else 1)) / 10)
        (resolve_checkpoint cfg.resume_from_checkpoint
          pathExists).resume_arg) := by
  obtain ⟨t, vd, he, hlen⟩ := split_train_data_train_rows tok labels permGen
    st sv cfg.val_set_size d hall hgen hst
  simp only [finetune, he, hlen]

/-- Witness for C5, the spec's scenario: per-device batch 4, accumulation
2, non-distributed, 100 training rows, no validation split: effective
batch 8, total steps 12, warmup = save cadence = 1. -/
theorem finetune_step_schedule_witness :
    (0 < 4 * 2 * (if false then 1 else 1)) ∧
    finetune ⟨none, 4, 2, 1, false, 0⟩ (fun s => [s.length]) ["positive"]
        (fun _ n => List.range n) (List.range 100) [] (fun _ => false)
        (some (List.replicate 100 ⟨"x", "i", "positive"⟩)) =
      some (.ran ⟨none, false⟩ 8 12 1 1 none) := by
  constructor
  · decide
  · exact finetune_step_schedule ⟨none, 4, 2, 1, false, 0⟩
      (fun s => [s.length]) ["positive"] (fun _ n => List.range n)
      (List.range 100) [] (fun _ => false)
      (List.replicate 100 ⟨"x", "i", "positive"⟩)
      (fun x hx => by
        rw [List.eq_of_mem_replicate hx]; exact List.mem_cons_self _ _)
      (by simp)
      (by simp)
      (by decide)

/-- Claim C10: the value `finetune` passes to the trainer as its
resume-from-checkpoint argument is truthy (`some _`) if and only if
resumption was configured AND `<dir>/pytorch_model.bin` exists; with
resumption unconfigured, or with only `adapter_model.bin` present, or
with neither file present, the trainer receives a falsy value. -/
theorem finetune_trainer_resume (cfg : FinetuneConfig)
    (tok : String → List Nat) (labels : List String)
    (permGen : Nat → Nat → List Nat) (st sv : List Nat)
    (pathExists : String → Bool) (d : List Example)
    (hall : ∀ x ∈ d, x.output ∈ labels) :
    ∃ (ckpt : CheckpointResolution) (B S W C : Nat) (tr : Option String),
      finetune cfg tok labels permGen st sv pathExists (some d) =
        some (.ran ckpt B S W C tr) ∧
      tr = (resolve_checkpoint cfg.resume_from_checkpoint
        pathExists).resume_arg ∧
      (tr ≠ none ↔ ∃ dir, cfg.resume_from_checkpoint = some dir ∧
        pathExists (dir ++ "/pytorch_model.bin") = true) := by
  obtain ⟨t, vd, he⟩ := split_train_data_succeeds tok labels permGen st sv
    cfg.val_set_size d hall
  refine ⟨resolve_checkpoint cfg.resume_from_checkpoint pathExists,
    cfg.per_gpu_train_batch_size * cfg.gradient_accumulation_steps *
      (if cfg.ddp then cfg.world_size else 1),
    t.length / (cfg.per_gpu_train_batch_size *
      cfg.gradient_accumulation_steps *
      (if cfg.ddp then cfg.world_size else 1)),
    t.length / (cfg.per_gpu_train_batch_size *
      cfg.gradient_accumulation_steps *
      (if cfg.ddp then cfg.world_size else 1)) / 10,
    t.length / (cfg.per_gpu_train_batch_size *
      cfg.gradient_accumulation_steps *
      (if cfg.ddp then cfg.world_size else 1)) / 10,
    (resolve_checkpoint cfg.resume_from_checkpoint pathExists).resume_arg,
    by simp only [finetune, he], rfl, ?_⟩
  cases hr : cfg.resume_from_checkpoint with
  | none => simp [resolve_checkpoint]
  | some dir =>
    by_cases hpe : pathExists (dir ++ "/pytorch_model.bin") = true
    · simp [resolve_checkpoint, hpe]
    · by_cases hpa : pathExists (dir ++ "/adapter_model.bin") = true
      · simp [resolve_checkpoint, hpe, hpa]
      · simp [resolve_checkpoint, hpe, hpa]

/-- Witness for C10: resumption configured to directory `"ckpt"` and a
filesystem holding only `ckpt/pytorch_model.bin`: the trainer receives a
truthy resume value. -/
theorem finetune_trainer_resume_witness :
    (∀ x ∈ ([⟨"a", "b", "positive"⟩] : List Example),
      x.output ∈ ["positive"]) ∧
    ∃ (ckpt : CheckpointResolution) (B S W C : Nat) (tr : Option String),
      finetune ⟨some "ckpt", 1, 1, 1, false, 0⟩ (fun s => [s.length])
          ["positive"] (fun _ n => List.range n) [0] []
          (fun s => s == "ckpt/pytorch_model.bin")
          (some [⟨"a", "b", "positive"⟩]) =
        some (.ran ckpt B S W C tr) ∧
      tr = (resolve_checkpoint (some "ckpt")
        (fun s => s == "ckpt/pytorch_model.bin")).resume_arg ∧
      (tr ≠ none ↔ ∃ dir, (some "ckpt" : Option String) = some dir ∧
        (fun s : String => s == "ckpt/pytorch_model.bin")
          (dir ++ "/pytorch_model.bin") = true) :=
  ⟨by decide,
   finetune_trainer_resume ⟨some "ckpt", 1, 1, 1, false, 0⟩
     (fun s => [s.length]) ["positive"] (fun _ n => List.range n) [0] []
     (fun s => s == "ckpt/pytorch_model.bin") [⟨"a", "b", "positive"⟩]
     (by decide)⟩
